import Mathlib

/-!
Verification development for the `f1-race-replay` repository
(`src/arcade_replay.py`).  The Python program is shallowly embedded:
machine floats are modelled as exact rationals (or reals where a square
root occurs), the mutable window state becomes explicit state passing,
and the numpy vectorised operations become list operations.
-/

/-- Python `int()` applied to a rational number: truncation toward zero.
This models the `int(self.playback_speed)` call in `F1ReplayWindow.on_update`. -/
def pyInt (q : ℚ) : ℤ := if 0 ≤ q then ⌊q⌋ else ⌈q⌉

/-- Python 3 `round()` to an integer: round half to even.  Modelled from the
spec: the spec's `advance` description says the step is
`max(1, round(playback_speed))`; this definition exists only to state that
description for comparison with the code, which uses `int(...)` (see `pyInt`). -/
def pyRound (q : ℚ) : ℤ :=
  if q - ⌊q⌋ < 1/2 then ⌊q⌋
  else if 1/2 < q - ⌊q⌋ then ⌊q⌋ + 1
  else if Even ⌊q⌋ then ⌊q⌋ else ⌊q⌋ + 1

/-- The mutable replay state of `F1ReplayWindow`: current frame index,
playback speed, paused flag, and the (immutable) number of frames
`self.n_frames = len(frames)`.  The index is an integer, as in Python, so
that out-of-range values are representable rather than ruled out a priori. -/
structure ReplayState where
  frame_index : ℤ
  playback_speed : ℚ
  paused : Bool
  n_frames : ℕ
deriving DecidableEq, Repr

/-- The replay-state part of `F1ReplayWindow.__init__`: index 0, not paused,
caller-supplied playback speed (default 1.0), `n_frames = len(frames)`. -/
def initState (n_frames : ℕ) (playback_speed : ℚ) : ReplayState :=
  { frame_index := 0, playback_speed := playback_speed, paused := false,
    n_frames := n_frames }

/-- Model of `F1ReplayWindow.on_update`: if paused do nothing; otherwise add
`step = max(1, int(playback_speed))` to the frame index and clamp any index
`≥ n_frames` down to `n_frames - 1`. -/
def on_update (s : ReplayState) : ReplayState :=
  if s.paused then s
  else
    let step : ℤ := max 1 (pyInt s.playback_speed)
    let idx := s.frame_index + step
    if (s.n_frames : ℤ) ≤ idx then { s with frame_index := (s.n_frames : ℤ) - 1 }
    else { s with frame_index := idx }

/-- The keys `F1ReplayWindow.on_key_press` dispatches on; `OTHER` stands for
any key symbol not handled by the method. -/
inductive Key where
  | SPACE | RIGHT | LEFT | UP | DOWN | KEY_1 | KEY_2 | KEY_3 | KEY_4 | OTHER
deriving DecidableEq, Repr

/-- Model of `F1ReplayWindow.on_key_press`: SPACE toggles pause; RIGHT/LEFT seek by 10
frames clamped to `[0, n_frames - 1]`; UP doubles the speed; DOWN halves it
with a floor of 0.1; keys 1-4 set the presets 0.5, 1.0, 2.0, 4.0. -/
def on_key_press (s : ReplayState) (k : Key) : ReplayState :=
  match k with
  | .SPACE => { s with paused := !s.paused }
  | .RIGHT => { s with frame_index := min (s.frame_index + 10) ((s.n_frames : ℤ) - 1) }
  | .LEFT => { s with frame_index := max (s.frame_index - 10) 0 }
  | .UP => { s with playback_speed := s.playback_speed * 2 }
  | .DOWN => { s with playback_speed := max (1/10) (s.playback_speed / 2) }
  | .KEY_1 => { s with playback_speed := 1/2 }
  | .KEY_2 => { s with playback_speed := 1 }
  | .KEY_3 => { s with playback_speed := 2 }
  | .KEY_4 => { s with playback_speed := 4 }
  | .OTHER => s

/-- States reachable from the initial replay state by any sequence of
simulation ticks (`on_update`) and key presses (`on_key_press`). -/
inductive Reachable (n : ℕ) (ps : ℚ) : ReplayState → Prop where
  | init : Reachable n ps (initState n ps)
  | tick {s} : Reachable n ps s → Reachable n ps (on_update s)
  | key {s} (k : Key) : Reachable n ps s → Reachable n ps (on_key_press s k)

/-- One entry of `np.gradient(a)` with unit spacing: one-sided differences at
the two ends, central differences `(a[i+1] - a[i-1]) / 2` in the interior.
Out-of-range reads default to 0; they do not occur for `i < a.length` with
`2 ≤ a.length` (numpy raises on shorter input). -/
noncomputable def gradAt (a : List ℝ) (i : ℕ) : ℝ :=
  if i = 0 then a.getD 1 0 - a.getD 0 0
  else if i = a.length - 1 then a.getD (a.length - 1) 0 - a.getD (a.length - 2) 0
  else (a.getD (i + 1) 0 - a.getD (i - 1) 0) / 2

/-- Model of `np.gradient(a)`: the list of `gradAt` values, same length as `a`. -/
noncomputable def npGradient (a : List ℝ) : List ℝ :=
  (List.range a.length).map (gradAt a)

/-- The tangent norm `np.sqrt(dx**2 + dy**2)` at sample `i`. -/
noncomputable def normAt (xs ys : List ℝ) (i : ℕ) : ℝ :=
  Real.sqrt ((npGradient xs).getD i 0 ^ 2 + (npGradient ys).getD i 0 ^ 2)

open Classical in
/-- The denominator actually divided by: `norm[norm == 0] = 1.0` replaces a
zero norm with 1 before the division. -/
noncomputable def normFB (xs ys : List ℝ) (i : ℕ) : ℝ :=
  if normAt xs ys i = 0 then 1 else normAt xs ys i

/-- The normal component `nx = -dy` after the in-place normalisation `dy /= norm`. -/
noncomputable def nxAt (xs ys : List ℝ) (i : ℕ) : ℝ :=
  -((npGradient ys).getD i 0 / normFB xs ys i)

/-- The normal component `ny = dx` after the in-place normalisation `dx /= norm`. -/
noncomputable def nyAt (xs ys : List ℝ) (i : ℕ) : ℝ :=
  (npGradient xs).getD i 0 / normFB xs ys i

/-- numpy `.min()` of a nonempty array (0 for the empty list, on which numpy
raises). -/
noncomputable def npMin : List ℝ → ℝ
  | [] => 0
  | h :: t => t.foldl min h

/-- numpy `.max()` of a nonempty array (0 for the empty list, on which numpy
raises). -/
noncomputable def npMax : List ℝ → ℝ
  | [] => 0
  | h :: t => t.foldl max h

/-- The result tuple of `build_track_from_example_lap`: centerline,
inner/outer boundaries, and world bounds. -/
structure TrackGeom where
  plot_x_ref : List ℝ
  plot_y_ref : List ℝ
  x_inner : List ℝ
  y_inner : List ℝ
  x_outer : List ℝ
  y_outer : List ℝ
  x_min : ℝ
  x_max : ℝ
  y_min : ℝ
  y_max : ℝ

/-- Model of `build_track_from_example_lap(example_lap, track_width=200)`: offsets the
centerline by `±(track_width / 2)` along the fallback-normalised normal
`(nx, ny) = (-dy, dx)` and takes the bounds over centerline, inner and
outer boundaries. -/
noncomputable def build_track_from_example_lap (xs ys : List ℝ)
    (track_width : ℝ := 200) : TrackGeom :=
  let x_outer := (List.range xs.length).map
    (fun i => xs.getD i 0 + nxAt xs ys i * (track_width / 2))
  let y_outer := (List.range ys.length).map
    (fun i => ys.getD i 0 + nyAt xs ys i * (track_width / 2))
  let x_inner := (List.range xs.length).map
    (fun i => xs.getD i 0 - nxAt xs ys i * (track_width / 2))
  let y_inner := (List.range ys.length).map
    (fun i => ys.getD i 0 - nyAt xs ys i * (track_width / 2))
  { plot_x_ref := xs, plot_y_ref := ys,
    x_inner := x_inner, y_inner := y_inner,
    x_outer := x_outer, y_outer := y_outer,
    x_min := min (npMin xs) (min (npMin x_inner) (npMin x_outer)),
    x_max := max (npMax xs) (max (npMax x_inner) (npMax x_outer)),
    y_min := min (npMin ys) (min (npMin y_inner) (npMin y_outer)),
    y_max := max (npMax ys) (max (npMax y_inner) (npMax y_outer)) }

/-- Model of `np.linspace(a, b, n)`: `n` evenly spaced values from `a` to `b`
inclusive (`[a]` for `n = 1`, `[]` for `n = 0`). -/
def linspace (a b : ℚ) (n : ℕ) : List ℚ :=
  if n = 1 then [a]
  else (List.range n).map (fun (i : ℕ) => a + (b - a) * (i : ℚ) / ((n : ℚ) - 1))

/-- Model of `np.interp(t, xp, fp)` for one query point `t`, with the knots and values
zipped into one list: constant extrapolation outside `[xp[0], xp[-1]]`,
linear interpolation on the enclosing knot interval inside (assumes `xp`
increasing, as numpy does). -/
def npInterp (t : ℚ) : List (ℚ × ℚ) → ℚ
  | [] => 0
  | [p] => p.2
  | p :: q :: rest =>
    if t ≤ p.1 then p.2
    else if t ≤ q.1 then p.2 + (q.2 - p.2) * (t - p.1) / (q.1 - p.1)
    else npInterp t (q :: rest)

/-- Model of `F1ReplayWindow._interpolate_points(xs, ys, interp_points=2000)`:
index-parameterised resampling — `t_old = linspace(0, 1, len(xs))`,
`t_new = linspace(0, 1, interp_points)`, and `np.interp` of each coordinate
sequence independently, zipped into a point list. -/
def interpolate_points (xs ys : List ℚ) (interp_points : ℕ := 2000) :
    List (ℚ × ℚ) :=
  let t_old := linspace 0 1 xs.length
  let t_new := linspace 0 1 interp_points
  t_new.map (fun t => (npInterp t (t_old.zip xs), npInterp t (t_old.zip ys)))

/-- The scaling-related state of `F1ReplayWindow`: the world bounds, the
precomputed world-space boundary points, and the fields written by
`update_scaling` (scale, translation, screen-space boundary points). -/
structure TrackView where
  x_min : ℚ
  x_max : ℚ
  y_min : ℚ
  y_max : ℚ
  world_inner_points : List (ℚ × ℚ)
  world_outer_points : List (ℚ × ℚ)
  world_scale : ℚ
  tx : ℚ
  ty : ℚ
  screen_inner_points : List (ℚ × ℚ)
  screen_outer_points : List (ℚ × ℚ)
deriving DecidableEq

/-- Model of `F1ReplayWindow.world_to_screen`: `screen = world * scale + translation`
componentwise. -/
def world_to_screen (v : TrackView) (x y : ℚ) : ℚ × ℚ :=
  (v.world_scale * x + v.tx, v.world_scale * y + v.ty)

/-- Model of `F1ReplayWindow.update_scaling(screen_w, screen_h)`: 5% padding each
side, world extents floored at 1.0, scale = min of the per-axis usable/world
ratios, translation centering the world bounding box on the screen, then the
screen-space boundary polylines recomputed from the world-space ones with
the new transform. -/
def update_scaling (v : TrackView) (screen_w screen_h : ℚ) : TrackView :=
  let padding : ℚ := 1/20
  let world_w := max 1 (v.x_max - v.x_min)
  let world_h := max 1 (v.y_max - v.y_min)
  let usable_w := screen_w * (1 - 2 * padding)
  let usable_h := screen_h * (1 - 2 * padding)
  let scale_x := usable_w / world_w
  let scale_y := usable_h / world_h
  let world_scale := min scale_x scale_y
  let world_cx := (v.x_min + v.x_max) / 2
  let world_cy := (v.y_min + v.y_max) / 2
  let screen_cx := screen_w / 2
  let screen_cy := screen_h / 2
  let tx := screen_cx - world_scale * world_cx
  let ty := screen_cy - world_scale * world_cy
  let v' := { v with world_scale := world_scale, tx := tx, ty := ty }
  { v' with
    screen_inner_points := v.world_inner_points.map (fun p => world_to_screen v' p.1 p.2),
    screen_outer_points := v.world_outer_points.map (fun p => world_to_screen v' p.1 p.2) }

/-- A per-driver position record of a frame: `{x, y, lap, dist, rel_dist}`,
with the three keys the code reads through `.get(...)` optional. -/
structure PosRec where
  x : ℚ
  y : ℚ
  lap : Option ℚ
  dist : Option ℚ
  rel_dist : Option ℚ
deriving DecidableEq

/-- A frame: timestamp `t` and the driver dictionary, modelled as an
association list in insertion order (Python dict iteration order). -/
structure Frame where
  t : ℚ
  drivers : List (String × PosRec)
deriving DecidableEq

/-- Model of `pos.get("rel_dist", 0)`. -/
def relDist (p : PosRec) : ℚ := p.rel_dist.getD 0

/-- The sort key `x[2].get("dist", 999)`, the leaderboard sort key. -/
def distKey (p : PosRec) : ℚ := p.dist.getD 999

/-- The driver codes for which step 3 of `on_draw` draws a car marker: the
loop `continue`s (skips) exactly the drivers with `rel_dist == 1`. -/
def marker_codes (f : Frame) : List String :=
  (f.drivers.filter (fun d => decide (relDist d.2 ≠ 1))).map (fun d => d.1)

/-- Model of `driver_list.sort(key=lambda x: x[2].get("dist", 999), reverse=True)`:
the drivers of the frame stably sorted by descending distance. -/
def sorted_drivers (f : Frame) : List (String × PosRec) :=
  f.drivers.mergeSort (fun a b => decide (distKey b.2 ≤ distKey a.2))

/-- One rendered leaderboard row: rank (`i + 1`), driver code, and the text
drawn, `f"{current_pos}. {code}   OUT"` when `rel_dist == 1`, else
`f"{current_pos}. {code}"`. -/
structure LBRow where
  rank : ℕ
  code : String
  text : String
deriving DecidableEq

/-- The row built for the driver at (0-based) position `i` of the sorted
leaderboard list. -/
def lb_row (i : ℕ) (code : String) (p : PosRec) : LBRow :=
  { rank := i + 1, code := code,
    text := if relDist p = 1 then toString (i + 1) ++ ". " ++ code ++ "   OUT"
            else toString (i + 1) ++ ". " ++ code }

/-- The leaderboard as drawn by `on_draw`: one row per driver, in
distance-sorted order. -/
def leaderboard_rows (f : Frame) : List LBRow :=
  (sorted_drivers f).enum.map (fun ip => lb_row ip.1 ip.2.1 ip.2.2)

theorem on_update_n_frames (s : ReplayState) : (on_update s).n_frames = s.n_frames := by
  unfold on_update
  split
  · rfl
  · dsimp only
    split <;> rfl

theorem on_key_press_n_frames (s : ReplayState) (k : Key) :
    (on_key_press s k).n_frames = s.n_frames := by
  cases k <;> rfl

theorem reachable_n_frames {n : ℕ} {ps : ℚ} {s : ReplayState}
    (hs : Reachable n ps s) : s.n_frames = n := by
  induction hs with
  | init => rfl
  | tick _ ih => rw [on_update_n_frames]; exact ih
  | key k _ ih => rw [on_key_press_n_frames]; exact ih

theorem one_le_step (q : ℚ) : 1 ≤ max 1 (pyInt q) := le_max_left _ _

theorem pyInt_one : pyInt 1 = 1 := by norm_num [pyInt]

/-- Claim C1 (counterexample): at playback speed 1.5 the code advances the
frame index by `max(1, int(1.5)) = 1`, not by `max(1, round(1.5)) = 2` as the
claim states: from index 0 with 100 frames the tick yields index 1, while
the claimed step formula predicts index 2. -/
theorem C1_counterexample :
    (on_update { frame_index := 0, playback_speed := 3/2, paused := false,
                 n_frames := 100 }).frame_index ≠
      min (0 + max 1 (pyRound (3/2))) ((100 : ℤ) - 1) := by
  norm_num [on_update, pyInt, pyRound]

/-- Claim C1 (amended): for every replay state with at least one frame and a
valid index, a simulation tick while playing increments the frame index by
`max(1, int(playback_speed))` — truncation toward zero, not rounding —
clamped to the last valid index: ticking at the last frame leaves the index
unchanged, at playback speed 1 the increment is exactly 1 (up to the clamp),
and the index never exceeds `frame_count - 1`. -/
theorem C1_advance (s : ReplayState) (hn : 1 ≤ s.n_frames) (hp : s.paused = false)
    (h0 : 0 ≤ s.frame_index) (hlt : s.frame_index < (s.n_frames : ℤ)) :
    (on_update s).frame_index
        = min (s.frame_index + max 1 (pyInt s.playback_speed)) ((s.n_frames : ℤ) - 1) ∧
      (s.frame_index = (s.n_frames : ℤ) - 1 → (on_update s).frame_index = s.frame_index) ∧
      (s.playback_speed = 1 →
        (on_update s).frame_index = min (s.frame_index + 1) ((s.n_frames : ℤ) - 1)) ∧
      (on_update s).frame_index ≤ (s.n_frames : ℤ) - 1 := by
  have hstep : 1 ≤ max 1 (pyInt s.playback_speed) := one_le_step _
  have hmain : (on_update s).frame_index
      = min (s.frame_index + max 1 (pyInt s.playback_speed)) ((s.n_frames : ℤ) - 1) := by
    unfold on_update
    rw [hp]
    simp only [Bool.false_eq_true, if_false]
    split
    · next hge => simp only [min_eq_right]; omega
    · next hge => simp only [min_eq_left]; omega
  refine ⟨hmain, ?_, ?_, ?_⟩
  · intro hlast
    rw [hmain, hlast]
    omega
  · intro hone
    rw [hmain, hone, pyInt_one]
    norm_num
  · rw [hmain]; omega

/-- The concrete replay state of the spec's end-to-end scenario: index 95,
speed 1, 100 frames, playing. -/
def state95 : ReplayState :=
  { frame_index := 95, playback_speed := 1, paused := false, n_frames := 100 }

/-- Witness for C1 at the concrete state (index 95, speed 1, 100 frames). -/
theorem C1_advance_witness :
    (on_update state95).frame_index
        = min (state95.frame_index + max 1 (pyInt state95.playback_speed))
            ((state95.n_frames : ℤ) - 1) ∧
      (state95.frame_index = (state95.n_frames : ℤ) - 1 →
        (on_update state95).frame_index = state95.frame_index) ∧
      (state95.playback_speed = 1 →
        (on_update state95).frame_index
          = min (state95.frame_index + 1) ((state95.n_frames : ℤ) - 1)) ∧
      (on_update state95).frame_index ≤ (state95.n_frames : ℤ) - 1 := by
  exact C1_advance state95 (by norm_num [state95]) rfl (by norm_num [state95])
    (by norm_num [state95])

/-- Claim C2 (counterexample): with the empty frame list, the state after one
simulation tick is reachable and has frame index `-1`, violating
`0 ≤ index < frame count` (which is already unsatisfiable at frame count 0). -/
theorem C2_counterexample :
    Reachable 0 1 (on_update (initState 0 1)) ∧
      (on_update (initState 0 1)).frame_index = -1 := by
  exact ⟨.tick .init, by decide⟩

/-- Claim C2 (amended): for every frame list with at least one frame, every
sequence of simulation ticks and key presses starting from the initial state
keeps the frame index within `0 ≤ index < frame count`; the empty frame list
(excluded here) violates the invariant already at the initial state. -/
theorem C2_index_invariant (n : ℕ) (ps : ℚ) (s : ReplayState)
    (hn : 1 ≤ n) (hs : Reachable n ps s) :
    0 ≤ s.frame_index ∧ s.frame_index < (n : ℤ) := by
  induction hs with
  | init =>
    refine ⟨le_refl 0, ?_⟩
    show (0 : ℤ) < (n : ℤ)
    exact_mod_cast hn
  | @tick s' h ih =>
    have hnf : s'.n_frames = n := reachable_n_frames h
    have hstep : 1 ≤ max 1 (pyInt s'.playback_speed) := one_le_step _
    unfold on_update
    split
    · exact ih
    · dsimp only
      split
      · next hge => dsimp only; rw [hnf] at hge ⊢; omega
      · next hge => dsimp only; rw [hnf] at hge; omega
  | @key s' k h ih =>
    have hnf : s'.n_frames = n := reachable_n_frames h
    cases k <;> simp only [on_key_press] <;> rw [hnf] at * <;> try exact ih
    · constructor
      · omega
      · have h1 : min (s'.frame_index + 10) ((n : ℤ) - 1) ≤ (n : ℤ) - 1 := min_le_right _ _
        omega
    · constructor
      · exact le_max_right _ _
      · have h1 : max (s'.frame_index - 10) 0 ≤ max s'.frame_index 0 := by
          apply max_le_max_right
          omega
        have h2 : max s'.frame_index 0 = s'.frame_index := max_eq_left ih.1
        omega

/-- Witness for C2 at a concrete reachable state (3 frames, two ticks). -/
theorem C2_index_invariant_witness :
    0 ≤ (on_update (on_update (initState 3 1))).frame_index ∧
      (on_update (on_update (initState 3 1))).frame_index < ((3 : ℕ) : ℤ) := by
  exact C2_index_invariant 3 1 _ (by norm_num) (.tick (.tick .init))

/-- Claim C8: every speed-changing key (UP doubling, DOWN halving, and the
presets 0.5, 1, 2, 4) leaves the playback speed at or above the minimum 0.1,
for every starting speed at or above 0.1. -/
theorem C8_speed_min (s : ReplayState) (k : Key)
    (hs : 1/10 ≤ s.playback_speed)
    (hk : k = .UP ∨ k = .DOWN ∨ k = .KEY_1 ∨ k = .KEY_2 ∨ k = .KEY_3 ∨ k = .KEY_4) :
    1/10 ≤ (on_key_press s k).playback_speed := by
  rcases hk with rfl | rfl | rfl | rfl | rfl | rfl
  · show 1/10 ≤ s.playback_speed * 2
    linarith
  · exact le_max_left _ _
  · norm_num [on_key_press]
  · norm_num [on_key_press]
  · norm_num [on_key_press]
  · norm_num [on_key_press]

/-- Witness for C8: doubling from speed 1 stays at or above 0.1. -/
theorem C8_speed_min_witness :
    1/10 ≤ (on_key_press (initState 10 1) Key.UP).playback_speed := by
  exact C8_speed_min (initState 10 1) Key.UP (by norm_num [initState]) (Or.inl rfl)

theorem update_scaling_world_scale (v : TrackView) (w h : ℚ) :
    (update_scaling v w h).world_scale
      = min (w * (1 - 2 * (1/20)) / max 1 (v.x_max - v.x_min))
          (h * (1 - 2 * (1/20)) / max 1 (v.y_max - v.y_min)) := rfl

theorem update_scaling_tx (v : TrackView) (w h : ℚ) :
    (update_scaling v w h).tx
      = w / 2 - (update_scaling v w h).world_scale * ((v.x_min + v.x_max) / 2) := rfl

theorem update_scaling_ty (v : TrackView) (w h : ℚ) :
    (update_scaling v w h).ty
      = h / 2 - (update_scaling v w h).world_scale * ((v.y_min + v.y_max) / 2) := rfl

theorem scale_center_bound (S u ww lo hi p : ℚ) (hS0 : 0 ≤ S) (hS : S ≤ u / ww)
    (hww : 1 ≤ ww) (hext : hi - lo ≤ ww) (hlo : lo ≤ p) (hhi : p ≤ hi) :
    -(u/2) ≤ S * (p - (lo + hi)/2) ∧ S * (p - (lo + hi)/2) ≤ u/2 := by
  have hww0 : 0 < ww := lt_of_lt_of_le one_pos hww
  have hd1 : p - (lo + hi)/2 ≤ ww/2 := by linarith
  have hd2 : -(ww/2) ≤ p - (lo + hi)/2 := by linarith
  have hkey : (u / ww) * (ww/2) = u/2 := by field_simp
  have h1 : S * (ww/2) ≤ (u/ww) * (ww/2) :=
    mul_le_mul_of_nonneg_right hS (by linarith)
  have h2 : S * (p - (lo + hi)/2) ≤ S * (ww/2) :=
    mul_le_mul_of_nonneg_left hd1 hS0
  have h3 : S * (-(ww/2)) ≤ S * (p - (lo + hi)/2) :=
    mul_le_mul_of_nonneg_left hd2 hS0
  constructor <;> nlinarith [h1, h2, h3, hkey]

/-- Claim C4: after `update_scaling` for any window size and bounding box,
every world point inside the box maps into the padded usable window area
`[0.05*w, 0.95*w] × [0.05*h, 0.95*h]`, and the box center maps exactly to
the window center `(w/2, h/2)`. -/
theorem C4_viewport_mapping (v : TrackView) (w h px py : ℚ)
    (hw : 0 ≤ w) (hh : 0 ≤ h)
    (hx : v.x_min ≤ px) (hx' : px ≤ v.x_max)
    (hy : v.y_min ≤ py) (hy' : py ≤ v.y_max) :
    (w * (1/20) ≤ (world_to_screen (update_scaling v w h) px py).1 ∧
      (world_to_screen (update_scaling v w h) px py).1 ≤ w * (19/20)) ∧
    (h * (1/20) ≤ (world_to_screen (update_scaling v w h) px py).2 ∧
      (world_to_screen (update_scaling v w h) px py).2 ≤ h * (19/20)) ∧
    world_to_screen (update_scaling v w h)
        ((v.x_min + v.x_max)/2) ((v.y_min + v.y_max)/2) = (w/2, h/2) := by
  have hww : (1:ℚ) ≤ max 1 (v.x_max - v.x_min) := le_max_left _ _
  have hwh : (1:ℚ) ≤ max 1 (v.y_max - v.y_min) := le_max_left _ _
  have hextx : v.x_max - v.x_min ≤ max 1 (v.x_max - v.x_min) := le_max_right _ _
  have hexty : v.y_max - v.y_min ≤ max 1 (v.y_max - v.y_min) := le_max_right _ _
  set S := (update_scaling v w h).world_scale with hSdef
  have hS0 : 0 ≤ S := by
    rw [hSdef, update_scaling_world_scale]
    apply le_min
    · apply div_nonneg
      · nlinarith
      · linarith
    · apply div_nonneg
      · nlinarith
      · linarith
  have hSx : S ≤ w * (1 - 2 * (1/20)) / max 1 (v.x_max - v.x_min) := by
    rw [hSdef, update_scaling_world_scale]
    exact min_le_left _ _
  have hSy : S ≤ h * (1 - 2 * (1/20)) / max 1 (v.y_max - v.y_min) := by
    rw [hSdef, update_scaling_world_scale]
    exact min_le_right _ _
  have hbx := scale_center_bound S (w * (1 - 2 * (1/20))) (max 1 (v.x_max - v.x_min))
    v.x_min v.x_max px hS0 hSx hww hextx hx hx'
  have hby := scale_center_bound S (h * (1 - 2 * (1/20))) (max 1 (v.y_max - v.y_min))
    v.y_min v.y_max py hS0 hSy hwh hexty hy hy'
  have hfst : (world_to_screen (update_scaling v w h) px py).1
      = S * px + (w / 2 - S * ((v.x_min + v.x_max) / 2)) := by
    show (update_scaling v w h).world_scale * px + (update_scaling v w h).tx = _
    rw [update_scaling_tx]
  have hsnd : (world_to_screen (update_scaling v w h) px py).2
      = S * py + (h / 2 - S * ((v.y_min + v.y_max) / 2)) := by
    show (update_scaling v w h).world_scale * py + (update_scaling v w h).ty = _
    rw [update_scaling_ty]
  refine ⟨⟨?_, ?_⟩, ⟨?_, ?_⟩, ?_⟩
  · rw [hfst]; nlinarith [hbx.1]
  · rw [hfst]; nlinarith [hbx.2]
  · rw [hsnd]; nlinarith [hby.1]
  · rw [hsnd]; nlinarith [hby.2]
  · show ((update_scaling v w h).world_scale * ((v.x_min + v.x_max)/2) + (update_scaling v w h).tx,
        (update_scaling v w h).world_scale * ((v.y_min + v.y_max)/2) + (update_scaling v w h).ty)
      = (w/2, h/2)
    rw [update_scaling_tx, update_scaling_ty]
    simp only [Prod.mk.injEq]
    constructor <;> ring

/-- The bounding box of the spec's end-to-end scenario: x in [0,100],
y in [0,50], with no precomputed boundary points. -/
def exampleView : TrackView :=
  { x_min := 0, x_max := 100, y_min := 0, y_max := 50,
    world_inner_points := [], world_outer_points := [],
    world_scale := 1, tx := 0, ty := 0,
    screen_inner_points := [], screen_outer_points := [] }

/-- Witness for C4: the scenario bounding box in a 1000 by 500 window, at the
world point (0, 0). -/
theorem C4_viewport_mapping_witness :
    ((1000 : ℚ) * (1/20) ≤ (world_to_screen (update_scaling exampleView 1000 500) 0 0).1 ∧
      (world_to_screen (update_scaling exampleView 1000 500) 0 0).1 ≤ 1000 * (19/20)) ∧
    ((500 : ℚ) * (1/20) ≤ (world_to_screen (update_scaling exampleView 1000 500) 0 0).2 ∧
      (world_to_screen (update_scaling exampleView 1000 500) 0 0).2 ≤ 500 * (19/20)) ∧
    world_to_screen (update_scaling exampleView 1000 500)
        ((exampleView.x_min + exampleView.x_max)/2) ((exampleView.y_min + exampleView.y_max)/2)
      = (1000/2, 500/2) := by
  exact C4_viewport_mapping exampleView 1000 500 0 0 (by norm_num) (by norm_num)
    (by norm_num [exampleView]) (by norm_num [exampleView])
    (by norm_num [exampleView]) (by norm_num [exampleView])

/-- Claim C5 (counterexample): the spec's scenario box mapped in a 1000 by
500 window and then in a 2000 by 500 window has equal scale factors (both 9,
ratio 1), yet the world point (50, 25) maps to x = 500 before and x = 1000
after the resize — the output does not change by the ratio of the scale
factors. -/
theorem C5_counterexample :
    (world_to_screen (update_scaling exampleView 2000 500) 50 25).1 ≠
      ((update_scaling exampleView 2000 500).world_scale /
          (update_scaling exampleView 1000 500).world_scale) *
        (world_to_screen (update_scaling exampleView 1000 500) 50 25).1 := by
  norm_num [update_scaling, world_to_screen, exampleView]

/-- Claim C5 (amended): across a resize, the offset of a mapped world point
from the window center changes by exactly the ratio of the two scale factors
(stated multiplicatively: offset₂ · scale₁ = offset₁ · scale₂), and
recomputing the viewport transform with the same window dimensions is
idempotent — identical scale, translation, and screen-space boundary
points. -/
theorem C5_resize_ratio_idempotent (v : TrackView) (w1 h1 w2 h2 px py : ℚ) :
    ((world_to_screen (update_scaling v w2 h2) px py).1 - w2/2)
        * (update_scaling v w1 h1).world_scale
      = ((world_to_screen (update_scaling v w1 h1) px py).1 - w1/2)
        * (update_scaling v w2 h2).world_scale ∧
    ((world_to_screen (update_scaling v w2 h2) px py).2 - h2/2)
        * (update_scaling v w1 h1).world_scale
      = ((world_to_screen (update_scaling v w1 h1) px py).2 - h1/2)
        * (update_scaling v w2 h2).world_scale ∧
    update_scaling (update_scaling v w2 h2) w2 h2 = update_scaling v w2 h2 := by
  have e1 : ∀ w h : ℚ, (world_to_screen (update_scaling v w h) px py).1
      = (update_scaling v w h).world_scale * px
        + (w / 2 - (update_scaling v w h).world_scale * ((v.x_min + v.x_max) / 2)) := by
    intro w h
    show (update_scaling v w h).world_scale * px + (update_scaling v w h).tx = _
    rw [update_scaling_tx]
  have e2 : ∀ w h : ℚ, (world_to_screen (update_scaling v w h) px py).2
      = (update_scaling v w h).world_scale * py
        + (h / 2 - (update_scaling v w h).world_scale * ((v.y_min + v.y_max) / 2)) := by
    intro w h
    show (update_scaling v w h).world_scale * py + (update_scaling v w h).ty = _
    rw [update_scaling_ty]
  refine ⟨?_, ?_, rfl⟩
  · rw [e1, e1]; ring
  · rw [e2, e2]; ring

theorem linspace_length (a b : ℚ) (n : ℕ) : (linspace a b n).length = n := by
  unfold linspace
  split
  · next h => simp [h]
  · rw [List.length_map, List.length_range]

theorem npInterp_head (p : ℚ × ℚ) (ps : List (ℚ × ℚ)) : npInterp p.1 (p :: ps) = p.2 := by
  cases ps with
  | nil => rfl
  | cons q rest => simp [npInterp]

theorem npInterp_second (p q : ℚ × ℚ) (rest : List (ℚ × ℚ)) (hpq : p.1 < q.1) :
    npInterp q.1 (p :: q :: rest) = q.2 := by
  have h1 : ¬ q.1 ≤ p.1 := not_le.mpr hpq
  have h2 : q.1 - p.1 ≠ 0 := sub_ne_zero.mpr (ne_of_gt hpq)
  simp only [npInterp, if_neg h1, if_pos (le_refl q.1)]
  field_simp

theorem npInterp_cons_of_lt (t : ℚ) (p q : ℚ × ℚ) (rest : List (ℚ × ℚ))
    (hpq : p.1 < q.1) (hqt : q.1 < t) :
    npInterp t (p :: q :: rest) = npInterp t (q :: rest) := by
  simp only [npInterp, if_neg (not_le.mpr (hpq.trans hqt)), if_neg (not_le.mpr hqt)]

theorem npInterp_get (ps : List (ℚ × ℚ)) (hpw : ps.Pairwise (fun a b => a.1 < b.1)) :
    ∀ (i : ℕ) (hi : i < ps.length),
      npInterp (ps.get ⟨i, hi⟩).1 ps = (ps.get ⟨i, hi⟩).2 := by
  induction ps with
  | nil => intro i hi; simp at hi
  | cons p ps ih =>
    intro i hi
    have hhead := (List.pairwise_cons.mp hpw).1
    have htail := (List.pairwise_cons.mp hpw).2
    match i with
    | 0 => exact npInterp_head p ps
    | j + 1 =>
      have hj : j < ps.length := by simpa using hi
      cases ps with
      | nil => simp at hj
      | cons q rest =>
        have hpq : p.1 < q.1 := hhead q (by simp)
        have hget : ((p :: q :: rest).get ⟨j + 1, hi⟩) = (q :: rest).get ⟨j, hj⟩ := rfl
        rw [hget]
        match j, hj with
        | 0, _ => exact npInterp_second p q rest hpq
        | j' + 1, hj =>
          have hj' : j' < rest.length := by simpa using hj
          have hget2 : ((q :: rest).get ⟨j' + 1, hj⟩) = rest.get ⟨j', hj'⟩ := rfl
          have hqt : q.1 < ((q :: rest).get ⟨j' + 1, hj⟩).1 := by
            rw [hget2]
            exact (List.pairwise_cons.mp htail).1 _ (List.get_mem rest j' hj')
          rw [npInterp_cons_of_lt _ p q rest hpq hqt]
          exact ih htail (j' + 1) hj

theorem linspace01_pairwise (n : ℕ) (h2 : 2 ≤ n) :
    (linspace 0 1 n).Pairwise (· < ·) := by
  unfold linspace
  rw [if_neg (by omega)]
  have h1 : (0:ℚ) < (n:ℚ) - 1 := by
    have h : (2:ℚ) ≤ (n:ℚ) := by exact_mod_cast h2
    linarith
  refine List.Pairwise.map _ ?_ (List.sorted_lt_range n)
  intro a b hab
  simp only [zero_add, sub_zero, one_mul]
  gcongr

theorem zip_pairwise_fst {t xs : List ℚ} (h : t.Pairwise (· < ·))
    (hlen : t.length ≤ xs.length) :
    (t.zip xs).Pairwise (fun a b => a.1 < b.1) := by
  have hmap : ((t.zip xs).map Prod.fst).Pairwise (· < ·) := by
    rw [List.map_fst_zip t xs hlen]
    exact h
  exact (List.pairwise_map).mp hmap

theorem interpolate_points_self (m : ℕ) (h2 : 2 ≤ m) (xs ys : List ℚ)
    (hx : xs.length = m) (hy : ys.length = m) :
    interpolate_points xs ys m = xs.zip ys := by
  unfold interpolate_points
  rw [hx]
  have htlen : (linspace 0 1 m).length = m := linspace_length 0 1 m
  have htpw : (linspace 0 1 m).Pairwise (· < ·) := linspace01_pairwise m h2
  have hzx : ((linspace 0 1 m).zip xs).Pairwise (fun a b => a.1 < b.1) :=
    zip_pairwise_fst htpw (by omega)
  have hzy : ((linspace 0 1 m).zip ys).Pairwise (fun a b => a.1 < b.1) :=
    zip_pairwise_fst htpw (by omega)
  apply List.ext_get
  · rw [List.length_map, htlen, List.length_zip, hx, hy, min_self]
  · intro i h1 h2
    have hit : i < (linspace 0 1 m).length := by
      rw [List.length_map] at h1
      exact h1
    have hizx : i < ((linspace 0 1 m).zip xs).length := by
      rw [List.length_zip, htlen, hx, min_self]
      rw [htlen] at hit
      exact hit
    have hizy : i < ((linspace 0 1 m).zip ys).length := by
      rw [List.length_zip, htlen, hy, min_self]
      rw [htlen] at hit
      exact hit
    have hix : i < xs.length := by omega
    have hiy : i < ys.length := by omega
    rw [List.get_map]
    have hgzx : ((linspace 0 1 m).zip xs).get ⟨i, hizx⟩
        = ((linspace 0 1 m).get ⟨i, hit⟩, xs.get ⟨i, hix⟩) := List.get_zip ..
    have hgzy : ((linspace 0 1 m).zip ys).get ⟨i, hizy⟩
        = ((linspace 0 1 m).get ⟨i, hit⟩, ys.get ⟨i, hiy⟩) := List.get_zip ..
    have hx1 : npInterp ((linspace 0 1 m).get ⟨i, hit⟩) ((linspace 0 1 m).zip xs)
        = xs.get ⟨i, hix⟩ := by
      have h := npInterp_get _ hzx i hizx
      rw [hgzx] at h
      exact h
    have hy1 : npInterp ((linspace 0 1 m).get ⟨i, hit⟩) ((linspace 0 1 m).zip ys)
        = ys.get ⟨i, hiy⟩ := by
      have h := npInterp_get _ hzy i hizy
      rw [hgzy] at h
      exact h
    rw [hx1, hy1, List.get_zip ..]

/-- Claim C6: resampling is idempotent at the target density — for every
pair of coordinate lists with exactly 2000 points, the index-parameterised
linear-interpolation resampler reproduces the original points exactly. -/
theorem C6_resample_idempotent (xs ys : List ℚ)
    (hx : xs.length = 2000) (hy : ys.length = 2000) :
    interpolate_points xs ys 2000 = xs.zip ys :=
  interpolate_points_self 2000 (by norm_num) xs ys hx hy

/-- Witness for C6: the constant-zero polyline with 2000 points. -/
theorem C6_resample_idempotent_witness :
    interpolate_points (List.replicate 2000 (0:ℚ)) (List.replicate 2000 (0:ℚ)) 2000
      = (List.replicate 2000 (0:ℚ)).zip (List.replicate 2000 (0:ℚ)) := by
  exact C6_resample_idempotent _ _ (List.length_replicate ..) (List.length_replicate ..)

/-- Claim C7: the inner and outer boundary arrays each have exactly as many
points as the reference lap has samples, and the resampler's output has
exactly 2000 points for every non-empty input polyline, regardless of the
input's length. -/
theorem C7_point_counts (xs ys : List ℝ) (w : ℝ) (qxs qys : List ℚ)
    (h2 : 2 ≤ xs.length) (hlen : xs.length = ys.length) (hne : qxs ≠ []) :
    (build_track_from_example_lap xs ys w).x_inner.length = xs.length ∧
    (build_track_from_example_lap xs ys w).y_inner.length = xs.length ∧
    (build_track_from_example_lap xs ys w).x_outer.length = xs.length ∧
    (build_track_from_example_lap xs ys w).y_outer.length = xs.length ∧
    (interpolate_points qxs qys 2000).length = 2000 := by
  refine ⟨?_, ?_, ?_, ?_, ?_⟩
  · simp [build_track_from_example_lap]
  · simp [build_track_from_example_lap, hlen]
  · simp [build_track_from_example_lap]
  · simp [build_track_from_example_lap, hlen]
  · simp [interpolate_points, linspace_length]

/-- Witness for C7: a two-sample lap and a two-point polyline. -/
theorem C7_point_counts_witness :
    (build_track_from_example_lap [0, 1] [0, 0] 200).x_inner.length = ([(0:ℝ), 1]).length ∧
    (build_track_from_example_lap [0, 1] [0, 0] 200).y_inner.length = ([(0:ℝ), 1]).length ∧
    (build_track_from_example_lap [0, 1] [0, 0] 200).x_outer.length = ([(0:ℝ), 1]).length ∧
    (build_track_from_example_lap [0, 1] [0, 0] 200).y_outer.length = ([(0:ℝ), 1]).length ∧
    (interpolate_points [0, 1] [2, 3] 2000).length = 2000 := by
  exact C7_point_counts [0, 1] [0, 0] 200 [0, 1] [2, 3] (by simp) (by simp) (by simp)

theorem getD_range_map (f : ℕ → ℝ) (n i : ℕ) (h : i < n) :
    ((List.range n).map f).getD i 0 = f i := by
  rw [List.getD_eq_getElem?_getD, List.getElem?_map, List.getElem?_range h]
  rfl

theorem npGradient_def (a : List ℝ) :
    npGradient a = (List.range a.length).map (gradAt a) := rfl

theorem build_track_x_outer (xs ys : List ℝ) (w : ℝ) :
    (build_track_from_example_lap xs ys w).x_outer
      = (List.range xs.length).map (fun i => xs.getD i 0 + nxAt xs ys i * (w / 2)) := rfl

theorem build_track_y_outer (xs ys : List ℝ) (w : ℝ) :
    (build_track_from_example_lap xs ys w).y_outer
      = (List.range ys.length).map (fun i => ys.getD i 0 + nyAt xs ys i * (w / 2)) := rfl

theorem build_track_x_inner (xs ys : List ℝ) (w : ℝ) :
    (build_track_from_example_lap xs ys w).x_inner
      = (List.range xs.length).map (fun i => xs.getD i 0 - nxAt xs ys i * (w / 2)) := rfl

theorem build_track_y_inner (xs ys : List ℝ) (w : ℝ) :
    (build_track_from_example_lap xs ys w).y_inner
      = (List.range ys.length).map (fun i => ys.getD i 0 - nyAt xs ys i * (w / 2)) := rfl

/-- Claim C3 (counterexample): on the degenerate two-sample centerline whose
points coincide (all tangents zero), the fallback sets the divisor to 1 but
the tangent stays (0,0), so the outer boundary point coincides with the
centerline point: its distance is 0, not `w/2 = 100`. -/
theorem C3_counterexample :
    Real.sqrt
        (((build_track_from_example_lap [0, 0] [0, 0] 200).x_outer.getD 0 0
            - ([(0:ℝ), 0]).getD 0 0)^2
          + ((build_track_from_example_lap [0, 0] [0, 0] 200).y_outer.getD 0 0
            - ([(0:ℝ), 0]).getD 0 0)^2)
      ≠ 200/2 := by
  have hdx : (npGradient [(0:ℝ), 0]).getD 0 0 = 0 := by
    rw [npGradient_def, getD_range_map _ _ _ (by simp)]
    simp [gradAt]
  have hnorm : normAt [(0:ℝ), 0] [(0:ℝ), 0] 0 = 0 := by
    unfold normAt
    rw [hdx]
    norm_num [Real.sqrt_zero]
  have hnx : nxAt [(0:ℝ), 0] [(0:ℝ), 0] 0 = 0 := by
    unfold nxAt normFB
    rw [hnorm, if_pos rfl, hdx]
    norm_num
  have hny : nyAt [(0:ℝ), 0] [(0:ℝ), 0] 0 = 0 := by
    unfold nyAt normFB
    rw [hnorm, if_pos rfl, hdx]
    norm_num
  have hxo : (build_track_from_example_lap [0, 0] [0, 0] 200).x_outer.getD 0 0
      = ([(0:ℝ), 0]).getD 0 0 + nxAt [(0:ℝ), 0] [(0:ℝ), 0] 0 * (200 / 2) := by
    rw [build_track_x_outer, getD_range_map _ _ _ (by simp)]
  have hyo : (build_track_from_example_lap [0, 0] [0, 0] 200).y_outer.getD 0 0
      = ([(0:ℝ), 0]).getD 0 0 + nyAt [(0:ℝ), 0] [(0:ℝ), 0] 0 * (200 / 2) := by
    rw [build_track_y_outer, getD_range_map _ _ _ (by simp)]
  rw [hxo, hyo, hnx, hny]
  norm_num [Real.sqrt_zero]

theorem sqrt_norm_pos (dx dy : ℝ) (hnz : Real.sqrt (dx^2 + dy^2) ≠ 0) :
    0 < Real.sqrt (dx^2 + dy^2) :=
  lt_of_le_of_ne (Real.sqrt_nonneg _) (Ne.symm hnz)

/-- Claim C3 (amended): at every sample whose central-difference tangent has
nonzero norm, the inner and outer boundary points each lie exactly `w/2`
world units from the corresponding centerline point, and they lie
symmetrically on opposite sides (the inner offset is the negation of the
nonzero outer offset).  At a sample with zero tangent norm (the
counterexample) the fallback divisor 1 leaves the normal at (0,0), and both
boundary points coincide with the centerline point instead. -/
theorem C3_boundary_offsets (xs ys : List ℝ) (w : ℝ) (i : ℕ)
    (h2 : 2 ≤ xs.length) (hlen : xs.length = ys.length) (hi : i < xs.length)
    (hw : 0 < w) (hnz : normAt xs ys i ≠ 0) :
    Real.sqrt
        (((build_track_from_example_lap xs ys w).x_outer.getD i 0 - xs.getD i 0)^2
          + ((build_track_from_example_lap xs ys w).y_outer.getD i 0 - ys.getD i 0)^2)
      = w/2 ∧
    Real.sqrt
        (((build_track_from_example_lap xs ys w).x_inner.getD i 0 - xs.getD i 0)^2
          + ((build_track_from_example_lap xs ys w).y_inner.getD i 0 - ys.getD i 0)^2)
      = w/2 ∧
    (build_track_from_example_lap xs ys w).x_inner.getD i 0 - xs.getD i 0
      = -((build_track_from_example_lap xs ys w).x_outer.getD i 0 - xs.getD i 0) ∧
    (build_track_from_example_lap xs ys w).y_inner.getD i 0 - ys.getD i 0
      = -((build_track_from_example_lap xs ys w).y_outer.getD i 0 - ys.getD i 0) ∧
    ¬((build_track_from_example_lap xs ys w).x_outer.getD i 0 - xs.getD i 0 = 0 ∧
      (build_track_from_example_lap xs ys w).y_outer.getD i 0 - ys.getD i 0 = 0) := by
  have hiy : i < ys.length := hlen ▸ hi
  have hox : (build_track_from_example_lap xs ys w).x_outer.getD i 0
      = xs.getD i 0 + nxAt xs ys i * (w / 2) := by
    rw [build_track_x_outer, getD_range_map _ _ _ hi]
  have hoy : (build_track_from_example_lap xs ys w).y_outer.getD i 0
      = ys.getD i 0 + nyAt xs ys i * (w / 2) := by
    rw [build_track_y_outer, getD_range_map _ _ _ hiy]
  have hix : (build_track_from_example_lap xs ys w).x_inner.getD i 0
      = xs.getD i 0 - nxAt xs ys i * (w / 2) := by
    rw [build_track_x_inner, getD_range_map _ _ _ hi]
  have hiy' : (build_track_from_example_lap xs ys w).y_inner.getD i 0
      = ys.getD i 0 - nyAt xs ys i * (w / 2) := by
    rw [build_track_y_inner, getD_range_map _ _ _ hiy]
  have hfb : normFB xs ys i = normAt xs ys i := if_neg hnz
  have hnpos : 0 < normAt xs ys i := sqrt_norm_pos _ _ hnz
  have hsq : (normAt xs ys i)^2
      = ((npGradient xs).getD i 0)^2 + ((npGradient ys).getD i 0)^2 :=
    Real.sq_sqrt (by positivity)
  have hnx : nxAt xs ys i = -((npGradient ys).getD i 0 / normAt xs ys i) := by
    unfold nxAt
    rw [hfb]
  have hny : nyAt xs ys i = (npGradient xs).getD i 0 / normAt xs ys i := by
    unfold nyAt
    rw [hfb]
  have hw2 : (0:ℝ) ≤ w / 2 := by linarith
  have hkey : (nxAt xs ys i * (w / 2))^2 + (nyAt xs ys i * (w / 2))^2 = (w/2)^2 := by
    rw [hnx, hny]
    have hexp : (-((npGradient ys).getD i 0 / normAt xs ys i) * (w / 2))^2
        + ((npGradient xs).getD i 0 / normAt xs ys i * (w / 2))^2
        = (((npGradient xs).getD i 0)^2 + ((npGradient ys).getD i 0)^2)
          / (normAt xs ys i)^2 * (w/2)^2 := by
      field_simp
      ring
    rw [hexp, ← hsq, div_self (pow_ne_zero 2 hnz), one_mul]
  have hd1 : Real.sqrt
      (((build_track_from_example_lap xs ys w).x_outer.getD i 0 - xs.getD i 0)^2
        + ((build_track_from_example_lap xs ys w).y_outer.getD i 0 - ys.getD i 0)^2)
      = w/2 := by
    rw [hox, hoy]
    have hcalc : (xs.getD i 0 + nxAt xs ys i * (w / 2) - xs.getD i 0)^2
        + (ys.getD i 0 + nyAt xs ys i * (w / 2) - ys.getD i 0)^2
        = (nxAt xs ys i * (w / 2))^2 + (nyAt xs ys i * (w / 2))^2 := by ring
    rw [hcalc, hkey, Real.sqrt_sq hw2]
  have hd2 : Real.sqrt
      (((build_track_from_example_lap xs ys w).x_inner.getD i 0 - xs.getD i 0)^2
        + ((build_track_from_example_lap xs ys w).y_inner.getD i 0 - ys.getD i 0)^2)
      = w/2 := by
    rw [hix, hiy']
    have hcalc : (xs.getD i 0 - nxAt xs ys i * (w / 2) - xs.getD i 0)^2
        + (ys.getD i 0 - nyAt xs ys i * (w / 2) - ys.getD i 0)^2
        = (nxAt xs ys i * (w / 2))^2 + (nyAt xs ys i * (w / 2))^2 := by ring
    rw [hcalc, hkey, Real.sqrt_sq hw2]
  refine ⟨hd1, hd2, ?_, ?_, ?_⟩
  · rw [hix, hox]; ring
  · rw [hiy', hoy]; ring
  · rintro ⟨hx0, hy0⟩
    rw [hox] at hx0
    rw [hoy] at hy0
    have hxz : nxAt xs ys i * (w / 2) = 0 := by linarith
    have hyz : nyAt xs ys i * (w / 2) = 0 := by linarith
    rw [hxz, hyz] at hkey
    nlinarith

/-- Witness for C3: the straight three-sample centerline `x = [0,1,2]`,
`y = [0,0,0]` at sample 0, track width 200. -/
theorem C3_boundary_offsets_witness :
    Real.sqrt
        (((build_track_from_example_lap [0, 1, 2] [0, 0, 0] 200).x_outer.getD 0 0
            - ([(0:ℝ), 1, 2]).getD 0 0)^2
          + ((build_track_from_example_lap [0, 1, 2] [0, 0, 0] 200).y_outer.getD 0 0
            - ([(0:ℝ), 0, 0]).getD 0 0)^2)
      = 200/2 ∧
    Real.sqrt
        (((build_track_from_example_lap [0, 1, 2] [0, 0, 0] 200).x_inner.getD 0 0
            - ([(0:ℝ), 1, 2]).getD 0 0)^2
          + ((build_track_from_example_lap [0, 1, 2] [0, 0, 0] 200).y_inner.getD 0 0
            - ([(0:ℝ), 0, 0]).getD 0 0)^2)
      = 200/2 ∧
    (build_track_from_example_lap [0, 1, 2] [0, 0, 0] 200).x_inner.getD 0 0
        - ([(0:ℝ), 1, 2]).getD 0 0
      = -((build_track_from_example_lap [0, 1, 2] [0, 0, 0] 200).x_outer.getD 0 0
        - ([(0:ℝ), 1, 2]).getD 0 0) ∧
    (build_track_from_example_lap [0, 1, 2] [0, 0, 0] 200).y_inner.getD 0 0
        - ([(0:ℝ), 0, 0]).getD 0 0
      = -((build_track_from_example_lap [0, 1, 2] [0, 0, 0] 200).y_outer.getD 0 0
        - ([(0:ℝ), 0, 0]).getD 0 0) ∧
    ¬((build_track_from_example_lap [0, 1, 2] [0, 0, 0] 200).x_outer.getD 0 0
        - ([(0:ℝ), 1, 2]).getD 0 0 = 0 ∧
      (build_track_from_example_lap [0, 1, 2] [0, 0, 0] 200).y_outer.getD 0 0
        - ([(0:ℝ), 0, 0]).getD 0 0 = 0) := by
  have hdx : (npGradient [(0:ℝ), 1, 2]).getD 0 0 = 1 := by
    rw [npGradient_def, getD_range_map _ _ _ (by simp)]
    simp [gradAt]
  have hdy : (npGradient [(0:ℝ), 0, 0]).getD 0 0 = 0 := by
    rw [npGradient_def, getD_range_map _ _ _ (by simp)]
    simp [gradAt]
  have hnz : normAt [(0:ℝ), 1, 2] [(0:ℝ), 0, 0] 0 ≠ 0 := by
    unfold normAt
    rw [hdx, hdy]
    norm_num [Real.sqrt_one]
  exact C3_boundary_offsets [0, 1, 2] [0, 0, 0] 200 0 (by simp) (by simp) (by simp)
    (by norm_num) hnz

theorem snd_eq_of_fst_nodup {α β : Type*} {l : List (α × β)}
    (h : (l.map Prod.fst).Nodup) {a : α} {b b' : β}
    (h1 : (a, b) ∈ l) (h2 : (a, b') ∈ l) : b = b' := by
  induction l with
  | nil => cases h1
  | cons hd tl ih =>
    rw [List.map_cons, List.nodup_cons] at h
    rcases List.mem_cons.mp h1 with h1 | h1 <;> rcases List.mem_cons.mp h2 with h2 | h2
    · exact congrArg Prod.snd (h1.trans h2.symm)
    · exfalso
      have ha : hd.1 = a := by rw [← h1]
      have hmem : a ∈ tl.map Prod.fst := List.mem_map.mpr ⟨(a, b'), h2, rfl⟩
      rw [← ha] at hmem
      exact h.1 hmem
    · exfalso
      have ha : hd.1 = a := by rw [← h2]
      have hmem : a ∈ tl.map Prod.fst := List.mem_map.mpr ⟨(a, b), h1, rfl⟩
      rw [← ha] at hmem
      exact h.1 hmem
    · exact ih h.2 h1 h2

/-- Claim C9: a driver whose position record has `rel_dist == 1` is excluded
from car-marker drawing, yet still appears in the leaderboard — which lists
all drivers of the frame sorted by descending distance — with its row text
carrying the "OUT" suffix. -/
theorem C9_out_driver (f : Frame) (c : String) (p : PosRec)
    (hmem : (c, p) ∈ f.drivers) (hrel : relDist p = 1)
    (hnodup : (f.drivers.map Prod.fst).Nodup) :
    c ∉ marker_codes f ∧
    (∃ row ∈ leaderboard_rows f, row.code = c ∧ ∃ s, row.text = s ++ "   OUT") ∧
    (sorted_drivers f).Perm f.drivers ∧
    (sorted_drivers f).Pairwise (fun a b => distKey b.2 ≤ distKey a.2) := by
  refine ⟨?_, ?_, ?_, ?_⟩
  · intro hc
    unfold marker_codes at hc
    rcases List.mem_map.mp hc with ⟨d, hd, hdc⟩
    have hdmem : d ∈ f.drivers := List.mem_of_mem_filter hd
    have hpred : relDist d.2 ≠ 1 := by
      have h := (List.mem_filter.mp hd).2
      simpa using h
    have hd2 : (c, d.2) ∈ f.drivers := by
      have : (d.1, d.2) = d := Prod.mk.eta
      rw [← hdc, this]
      exact hdmem
    have heq : p = d.2 := snd_eq_of_fst_nodup hnodup hmem hd2
    rw [← heq] at hpred
    exact hpred hrel
  · have hmem' : (c, p) ∈ sorted_drivers f := by
      unfold sorted_drivers
      exact (List.mergeSort_perm f.drivers _).mem_iff.mpr hmem
    rcases List.mem_iff_get.mp hmem' with ⟨⟨i, hilt⟩, hget⟩
    have henum : (i, (c, p)) ∈ (sorted_drivers f).enum := by
      rw [List.mem_enum_iff_get?, List.get?_eq_get hilt, hget]
    refine ⟨lb_row i c p, ?_, rfl, ?_⟩
    · exact List.mem_map.mpr ⟨(i, (c, p)), henum, rfl⟩
    · refine ⟨toString (i + 1) ++ ". " ++ c, ?_⟩
      show (if relDist p = 1 then toString (i + 1) ++ ". " ++ c ++ "   OUT"
        else toString (i + 1) ++ ". " ++ c) = _
      rw [if_pos hrel]
  · exact List.mergeSort_perm f.drivers _
  · have htrans : ∀ (a b c : String × PosRec),
        decide (distKey b.2 ≤ distKey a.2) = true →
        decide (distKey c.2 ≤ distKey b.2) = true →
        decide (distKey c.2 ≤ distKey a.2) = true := by
      intro a b c h1 h2
      simp only [decide_eq_true_eq] at h1 h2 ⊢
      exact le_trans h2 h1
    have htotal : ∀ (a b : String × PosRec),
        (decide (distKey b.2 ≤ distKey a.2) || decide (distKey a.2 ≤ distKey b.2)) = true := by
      intro a b
      simp only [Bool.or_eq_true, decide_eq_true_eq]
      exact le_total _ _
    have hs := List.sorted_mergeSort htrans htotal f.drivers
    refine List.Pairwise.imp ?_ hs
    intro a b hab
    exact of_decide_eq_true hab

/-- A concrete frame for the C9 witness: driver "AAA" is out
(`rel_dist = 1`, distance 100), driver "BBB" is running (distance 200). -/
def frameC9 : Frame :=
  { t := 3723,
    drivers := [("AAA", { x := 0, y := 0, lap := some 3, dist := some 100, rel_dist := some 1 }),
                ("BBB", { x := 1, y := 1, lap := some 3, dist := some 200, rel_dist := none })] }

/-- Witness for C9 at the concrete two-driver frame. -/
theorem C9_out_driver_witness :
    "AAA" ∉ marker_codes frameC9 ∧
    (∃ row ∈ leaderboard_rows frameC9, row.code = "AAA" ∧ ∃ s, row.text = s ++ "   OUT") ∧
    (sorted_drivers frameC9).Perm frameC9.drivers ∧
    (sorted_drivers frameC9).Pairwise (fun a b => distKey b.2 ≤ distKey a.2) := by
  exact C9_out_driver frameC9 "AAA"
    { x := 0, y := 0, lap := some 3, dist := some 100, rel_dist := some 1 }
    (by simp [frameC9]) (by norm_num [relDist]) (by simp [frameC9])

/-- Claim C10: the speed keys (UP, DOWN, presets 1-4) leave the frame index
and the paused flag unchanged; the seek keys (LEFT, RIGHT) leave the
playback speed and the paused flag unchanged; and SPACE leaves the frame
index and the playback speed unchanged. -/
theorem C10_key_frame_conditions (s : ReplayState) :
    ((on_key_press s .UP).frame_index = s.frame_index ∧
      (on_key_press s .UP).paused = s.paused) ∧
    ((on_key_press s .DOWN).frame_index = s.frame_index ∧
      (on_key_press s .DOWN).paused = s.paused) ∧
    ((on_key_press s .KEY_1).frame_index = s.frame_index ∧
      (on_key_press s .KEY_1).paused = s.paused) ∧
    ((on_key_press s .KEY_2).frame_index = s.frame_index ∧
      (on_key_press s .KEY_2).paused = s.paused) ∧
    ((on_key_press s .KEY_3).frame_index = s.frame_index ∧
      (on_key_press s .KEY_3).paused = s.paused) ∧
    ((on_key_press s .KEY_4).frame_index = s.frame_index ∧
      (on_key_press s .KEY_4).paused = s.paused) ∧
    ((on_key_press s .LEFT).playback_speed = s.playback_speed ∧
      (on_key_press s .LEFT).paused = s.paused) ∧
    ((on_key_press s .RIGHT).playback_speed = s.playback_speed ∧
      (on_key_press s .RIGHT).paused = s.paused) ∧
    ((on_key_press s .SPACE).frame_index = s.frame_index ∧
      (on_key_press s .SPACE).playback_speed = s.playback_speed) := by
  exact ⟨⟨rfl, rfl⟩, ⟨rfl, rfl⟩, ⟨rfl, rfl⟩, ⟨rfl, rfl⟩, ⟨rfl, rfl⟩, ⟨rfl, rfl⟩,
    ⟨rfl, rfl⟩, ⟨rfl, rfl⟩, ⟨rfl, rfl⟩⟩
